import Mathlib

/-!
Verification of the pdf2image job-state machine (service.py / utils.py).

The embedding models `invoke` and its helpers as pure Lean functions over an
explicit environment: the state store, the object-storage existence probe, the
outcome of the remote fetch, and the properties of the fetched document are
all inputs.  Every storage or network action the code performs is recorded in
an effect trace, so temporal claims ("X is persisted before Y") become
statements about the order of trace entries.

Timestamps are modelled as integer epoch seconds: `datetime.utcnow()` at entry
is the `start` parameter, the second `utcnow()` used by the pending-timeout
check is `Env.now`, and the elapsed-time diagnostics (`convert_time`,
`total_time`), which are never decision inputs, are supplied by the
environment.  `time.mktime(start.timetuple())` composed with
`datetime.fromtimestamp` round-trips the wall-clock value, so both are the
identity here.
-/

namespace Pdf2Image

/-- Configuration read from `settings` (dynaconf values, not in the source
tree): timeout seconds, max attempts, schema version, and render defaults. -/
structure Config where
  TIMEOUT : Int
  MAX_ATTEMPTS : Nat
  VERSION : Nat
  DEFAULT_FORMAT : String
  DEFAULT_DPI : Nat
  DEFAULT_JPG_QUALITY : Nat
deriving Repr, DecidableEq

/-- One entry of the `outputs` list: a rendered page index and its storage key. -/
structure OutputEntry where
  page : Nat
  key : String
deriving Repr, DecidableEq

/-- One entry of `target_files`: the result manifest. -/
structure TargetFile where
  id : Nat
  name : String
  size : Nat
deriving Repr, DecidableEq

/-- The serialized `status` field (absence modelled as `Option.none`). -/
inductive Status where
  | pending
  | success
  | fail
deriving Repr, DecidableEq

/-- The persisted job-state record (`_create_initial_state` lists its fields).
`outPfx` embeds the Python `output_prefix` field. -/
structure JState where
  bucket : String
  outPfx : String
  status : Option Status
  error : Option String
  datetime_started : Option Int
  convert_time : Option Int
  total_time : Option Int
  attempts : Nat
  version : Nat
  outputs : List OutputEntry
  output_format : String
  dpi : Nat
  page : Option Int
  quality : Option Nat
  source_url : Option String
  target_files : List TargetFile
deriving Repr, DecidableEq

/-- The invocation event.  `Option.none` models an absent key; `outPfx`
embeds the Python `output_prefix` key. -/
structure Event where
  source_url : Option String
  output_bucket : Option String
  outPfx : Option String
  output_format : Option String
  dpi : Option Nat
  page : Option Int
  quality : Option Nat
  force : Bool
deriving Repr, DecidableEq

/-- Observable storage / network actions performed by `invoke`, in order. -/
inductive Effect where
  | loadState (bucket key : String)
  | getObject (bucket key : String)
  | fetch (url : String)
  | saveState (bucket key : String) (s : JState)
  | render
  | upload (bucket key : String)
  | uploadZip (bucket key : String)
deriving Repr, DecidableEq

/-- The external world of one invocation: the prior record returned by
`_load_state`, the `get_object` existence probe used by
`_first_output_exists`, the outcome of `download_input_url`, the page count of
the fetched document, an optional exception raised inside `convert_pdf`'s
rendering loop, the clock at the timeout check, and elapsed-time readings. -/
structure Env where
  prevState : Option JState
  objectExists : String → String → Bool
  fetch : Except String Unit
  pageCount : Nat
  renderExc : Option String
  now : Int
  tConvert : Int
  tTotal : Int

deriving instance DecidableEq for Except

/-- Python `s.rstrip("/")`: drop every trailing slash.  Implemented over the
character list so that it evaluates by kernel reduction. -/
def rstrip_slash (s : String) : String :=
  String.mk (List.reverse (List.dropWhile (fun c => c == '/') (List.reverse s.data)))

/-- Python truthiness of an optional string (`None` and `""` are falsy). -/
def pyTruthy : Option String → Bool
  | none => false
  | some s => s != ""

/-- Embedding of `state_file_key` (utils.py): strip trailing slashes, append the suffix. -/
def state_file_key (opfx : String) : String :=
  rstrip_slash opfx ++ ".state.json"

/-- Embedding of `build_output_key` (utils.py): two parameters.  Note: service.py line 277
calls it with three positional arguments. -/
def build_output_key (opfx filename : String) : String :=
  rstrip_slash opfx ++ "/" ++ filename

/-- The `TypeError` message Python raises for the three-argument call of
`build_output_key` at service.py line 277. -/
def typeErrorMsg : String :=
  "build_output_key() takes 2 positional arguments but 3 were given"

/-- Constant `VALID_DPI_VALUES` (utils.py). -/
def VALID_DPI_VALUES : List Nat := [72, 96, 110, 150, 200, 250, 300, 600]

/-- Constant `VALID_QUALITY_VALUES` (utils.py). -/
def VALID_QUALITY_VALUES : List Nat := [10, 20, 30, 40, 50, 60, 70, 80, 90, 100]

/-- Constant `VALID_OUTPUT_FORMATS` (utils.py). -/
def VALID_OUTPUT_FORMATS : List String := ["png", "jpg", "small.jpg"]

/-- Embedding of `_normalize_page` (utils.py): a given page is clamped to
`min page (total_pages - 1)` and returned alone; otherwise all page indices. -/
def normalize_page (page : Option Int) (total_pages : Nat) :
    Except String (List Nat) :=
  match page with
  | some p =>
      if p < 0 then Except.error s!"Page must be >= 0, got {p}"
      else Except.ok [(min p ((total_pages : Int) - 1)).toNat]
  | none => Except.ok (List.range total_pages)

/-- Embedding of `convert_pdf` (utils.py): parameter validation followed by page
resolution.  Returns the list of rendered 0-based page indices and the
resolved format. -/
def convert_pdf (cfg : Config) (output_format : String) (dpi0 : Option Nat)
    (page : Option Int) (quality0 : Option Nat) (page_count : Nat) :
    Except String (List Nat × String) :=
  if output_format ∈ VALID_OUTPUT_FORMATS then
    let is_small := output_format == "small.jpg"
    let fmt := if is_small then "jpg" else output_format
    let dpi := (if is_small then some 110 else dpi0).getD cfg.DEFAULT_DPI
    let q0 := if is_small then some 50 else quality0
    if dpi ∈ VALID_DPI_VALUES then
      let q1 := if q0 = none ∧ fmt = "jpg" then some cfg.DEFAULT_JPG_QUALITY else q0
      let render : Except String (List Nat × String) :=
        if page_count = 0 then Except.error "PDF has no pages"
        else (normalize_page page page_count).map (fun pages => (pages, fmt))
      match q1 with
      | none => render
      | some q =>
          if fmt ≠ "jpg" then
            Except.error "JPEG quality is supported only for jpg format"
          else if q ∈ VALID_QUALITY_VALUES then render
          else Except.error s!"Unsupported JPEG quality: {q}"
    else Except.error s!"Unsupported dpi: {dpi}"
  else Except.error s!"Unsupported output format: {output_format}"

/-- Embedding of `_resolve_page` (service.py): absent stays absent, non-positive pages are
rejected before any state access. -/
def resolve_page (page : Option Int) : Except String (Option Int) :=
  match page with
  | none => Except.ok none
  | some p =>
      if p ≤ 0 then Except.error s!"page must be >= 1, got {p}"
      else Except.ok (some p)

/-- Embedding of `_create_initial_state` (service.py): the fresh candidate record. -/
def create_initial_state (cfg : Config) (start : Int)
    (output_bucket opfx output_format : String) (dpi : Nat)
    (page : Option Int) (quality : Option Nat) (source_url : Option String) :
    JState :=
  { bucket := output_bucket
    outPfx := opfx
    status := none
    error := none
    datetime_started := some start
    convert_time := none
    total_time := none
    attempts := 0
    version := cfg.VERSION
    outputs := []
    output_format := output_format
    dpi := dpi
    page := page
    quality := quality
    source_url := source_url
    target_files := [] }

/-- Embedding of `_has_timed_out` (service.py): no `datetime_started` means never timed
out; otherwise elapsed seconds at least `TIMEOUT`. -/
def has_timed_out (cfg : Config) (prev : JState) (now : Int) : Bool :=
  match prev.datetime_started with
  | none => false
  | some t => decide (cfg.TIMEOUT ≤ now - t)

/-- Embedding of `_first_output_exists` (service.py), with the probe it performs: false on
an empty outputs list or a falsy key/bucket (short-circuit, no probe),
otherwise the `get_object` result. -/
def first_output_exists (env : Env) (s : JState) : Bool × List Effect :=
  match s.outputs with
  | [] => (false, [])
  | o :: _ =>
      if o.key = "" ∨ s.bucket = "" then (false, [])
      else (env.objectExists s.bucket o.key, [Effect.getObject s.bucket o.key])

/-- Lines 220-221 of service.py: a schema-version mismatch zeroes the prior
record's attempts counter before any further check. -/
def migrate (cfg : Config) (p : JState) : JState :=
  if p.version ≠ cfg.VERSION then { p with attempts := 0 } else p

/-- Outcome of the admission block (service.py lines 216-242): either return
a record without executing, or fall through to fresh execution with the
candidate state; both carry the effects performed so far. -/
inductive Admission where
  | ret (tr : List Effect) (s : JState)
  | proceed (tr : List Effect) (s : JState)
deriving Repr, DecidableEq

/-- Lines 233-235 of service.py: the transitional record persisted when a
pending prior record has timed out. -/
def timeoutState (st1 : JState) : JState :=
  { st1 with
    attempts := st1.attempts + 1
    status := some Status.fail
    error := some "task timed out" }

/-- The admission checks over a migrated prior record `p1` (service.py lines
220-242).  The guards mirror the sequential `if` chain of the source over the
single value of `prev_status`: on the timed-out-pending path the source's
final check `prev_status == "fail" and attempts >= MAX_ATTEMPTS` compares
`prev_status`, which is `"pending"` there, so that path always proceeds after
persisting the transitional record. -/
def admitPrior (cfg : Config) (env : Env) (b sk : String) (st0 p1 : JState) :
    Admission :=
  let st1 := { st0 with attempts := p1.attempts }
  let fo :=
    if p1.status = some Status.success then first_output_exists env p1
    else (false, [])
  if p1.status = some Status.success ∧ fo.1 = true then
    Admission.ret fo.2 p1
  else if p1.status = some Status.pending ∧
      has_timed_out cfg p1 env.now = false then
    Admission.ret fo.2 p1
  else if p1.status = some Status.pending then
    Admission.proceed (fo.2 ++ [Effect.saveState b sk (timeoutState st1)])
      (timeoutState st1)
  else if p1.status = some Status.fail ∧ cfg.MAX_ATTEMPTS ≤ p1.attempts then
    Admission.ret fo.2 p1
  else Admission.proceed fo.2 st1

/-- The admission block of `invoke` (service.py lines 216-242): skipped when
no prior record exists or the force flag is set, otherwise the checks of
`admitPrior` on the migrated prior record. -/
def admission (cfg : Config) (env : Env) (force : Bool) (b sk : String)
    (st0 : JState) : Admission :=
  match env.prevState with
  | none => Admission.proceed [] st0
  | some p =>
      if force then Admission.proceed [] st0
      else admitPrior cfg env b sk st0 (migrate cfg p)

/-- The execution pipeline of `invoke` (service.py lines 244-329): fetch the
source, persist the pending record, render, and persist the terminal record.
The publishing loop is modelled as entered: its first statement,
`build_output_key(output_prefix, page_number, fmt)` at line 277, passes three
positional arguments to the two-parameter function of utils.py line 76, so
whenever at least one page was rendered the loop raises `TypeError`, which
the `except` block at line 317 classifies as a failure.  The `name_root`
computed by `_resolve_filename` and the upload / archive statements after
line 277 are unreachable. -/
def pipeline (cfg : Config) (env : Env) (u b sk ofmt : String) (dpi : Nat)
    (page : Option Int) (quality : Option Nat) (st : JState) :
    List Effect × JState :=
  match env.fetch with
  | Except.error msg =>
      let err := if msg = "" then "input file not found" else msg
      let s := { st with
        status := some Status.fail
        error := some err
        total_time := some env.tTotal
        attempts := st.attempts + 1 }
      ([Effect.fetch u, Effect.saveState b sk s], s)
  | Except.ok _ =>
      let spend := { st with status := some Status.pending }
      let conv : Except String (List Nat × String) :=
        match env.renderExc with
        | some e => Except.error e
        | none => convert_pdf cfg ofmt (some dpi) page quality env.pageCount
      match conv with
      | Except.error e =>
          let s := { spend with
            status := some Status.fail
            attempts := spend.attempts + 1
            error := some e
            total_time := some env.tTotal }
          ([Effect.fetch u, Effect.saveState b sk spend, Effect.render,
            Effect.saveState b sk s], s)
      | Except.ok (pages, _) =>
          match pages with
          | [] =>
              let s := { spend with
                convert_time := some env.tConvert
                target_files := []
                status := some Status.success
                attempts := 0
                total_time := some env.tTotal }
              ([Effect.fetch u, Effect.saveState b sk spend, Effect.render,
                Effect.saveState b sk s], s)
          | _ :: _ =>
              let s := { spend with
                convert_time := some env.tConvert
                status := some Status.fail
                attempts := spend.attempts + 1
                error := some typeErrorMsg
                total_time := some env.tTotal }
              ([Effect.fetch u, Effect.saveState b sk spend, Effect.render,
                Effect.saveState b sk s], s)

/-- The `source_url` local of `invoke` (empty when the event omits it, which
validation rejects first). -/
def evUrl (ev : Event) : String := ev.source_url.getD ""

/-- The `output_bucket` local of `invoke`. -/
def evBucket (ev : Event) : String := ev.output_bucket.getD ""

/-- The `output_prefix` local of `invoke`. -/
def evPfx (ev : Event) : String := ev.outPfx.getD ""

/-- The `output_format` local of `invoke` (event value or configured default). -/
def evFmt (cfg : Config) (ev : Event) : String :=
  ev.output_format.getD cfg.DEFAULT_FORMAT

/-- The `dpi` local of `invoke` (event value or configured default). -/
def evDpi (cfg : Config) (ev : Event) : Nat := ev.dpi.getD cfg.DEFAULT_DPI

/-- The `state_key` local of `invoke`. -/
def stateKey (ev : Event) : String := state_file_key (evPfx ev)

/-- The `state` local of `invoke`: the fresh candidate record built by
`_create_initial_state` from the validated request. -/
def initState (cfg : Config) (ev : Event) (start : Int) (page : Option Int) :
    JState :=
  create_initial_state cfg start (evBucket ev) (evPfx ev) (evFmt cfg ev)
    (evDpi cfg ev) page ev.quality (some (evUrl ev))

/-- Embedding of `invoke` (service.py): request validation, admission against the prior
record, and — when admission falls through — the execution pipeline.  Returns
the effect trace together with the returned record (or the `ValueError`
message raised during validation). -/
def invoke (cfg : Config) (env : Env) (ev : Event) (start : Int) :
    List Effect × Except String JState :=
  if pyTruthy ev.source_url then
    if pyTruthy ev.output_bucket && pyTruthy ev.outPfx then
      match resolve_page ev.page with
      | Except.error e => ([], Except.error e)
      | Except.ok page =>
          match admission cfg env ev.force (evBucket ev) (stateKey ev)
              (initState cfg ev start page) with
          | Admission.ret tr s =>
              (Effect.loadState (evBucket ev) (stateKey ev) :: tr, Except.ok s)
          | Admission.proceed tr st =>
              let r := pipeline cfg env (evUrl ev) (evBucket ev) (stateKey ev)
                (evFmt cfg ev) (evDpi cfg ev) page ev.quality st
              (Effect.loadState (evBucket ev) (stateKey ev) :: (tr ++ r.1),
               Except.ok r.2)
    else ([], Except.error "output_bucket and output_prefix are required")
  else ([], Except.error "source_url is required")

/-! ## Helper lemmas -/

lemma migrate_status (cfg : Config) (p : JState) :
    (migrate cfg p).status = p.status := by
  unfold migrate; split <;> rfl

lemma migrate_outputs (cfg : Config) (p : JState) :
    (migrate cfg p).outputs = p.outputs := by
  unfold migrate; split <;> rfl

lemma migrate_bucket (cfg : Config) (p : JState) :
    (migrate cfg p).bucket = p.bucket := by
  unfold migrate; split <;> rfl

lemma migrate_datetime (cfg : Config) (p : JState) :
    (migrate cfg p).datetime_started = p.datetime_started := by
  unfold migrate; split <;> rfl

/-- When the fetch succeeds, the pipeline performs exactly fetch, pending
save, render, terminal save, and returns the terminally saved record. -/
lemma pipeline_ok (cfg : Config) (env : Env) (u b sk ofmt : String)
    (dpi : Nat) (page : Option Int) (q : Option Nat) (st : JState)
    (h : env.fetch = Except.ok ()) :
    ∃ s, pipeline cfg env u b sk ofmt dpi page q st =
      ([Effect.fetch u,
        Effect.saveState b sk { st with status := some Status.pending },
        Effect.render, Effect.saveState b sk s], s) := by
  unfold pipeline
  rw [h]
  rcases henv : env.renderExc with _ | e
  · rcases hc : convert_pdf cfg ofmt (some dpi) page q env.pageCount with e' | pr
    · exact ⟨_, rfl⟩
    · rcases pr with ⟨pages, fmt⟩
      rcases pages with _ | ⟨pg0, rest⟩
      · exact ⟨_, rfl⟩
      · exact ⟨_, rfl⟩
  · exact ⟨_, rfl⟩

/-- The pipeline always begins with the fetch of the source document. -/
lemma pipeline_fetch_head (cfg : Config) (env : Env) (u b sk ofmt : String)
    (dpi : Nat) (page : Option Int) (q : Option Nat) (st : JState) :
    ∃ rest, (pipeline cfg env u b sk ofmt dpi page q st).1 =
      Effect.fetch u :: rest := by
  unfold pipeline
  rcases hf : env.fetch with msg | _
  · exact ⟨_, rfl⟩
  · rcases henv : env.renderExc with _ | e
    · rcases hc : convert_pdf cfg ofmt (some dpi) page q env.pageCount with e' | pr
      · exact ⟨_, rfl⟩
      · rcases pr with ⟨pages, fmt⟩
        rcases pages with _ | ⟨pg0, rest⟩
        · exact ⟨_, rfl⟩
        · exact ⟨_, rfl⟩
    · exact ⟨_, rfl⟩

/-- Every record the pipeline saves keeps the candidate's `outputs`, and its
`target_files` are the candidate's or freshly rebuilt. -/
lemma pipeline_save_frame (cfg : Config) (env : Env) (u b sk ofmt : String)
    (dpi : Nat) (page : Option Int) (q : Option Nat) (st : JState)
    (bb kk : String) (s : JState)
    (h : Effect.saveState bb kk s ∈ (pipeline cfg env u b sk ofmt dpi page q st).1) :
    s.outputs = st.outputs ∧
      (s.target_files = st.target_files ∨ s.target_files = []) := by
  unfold pipeline at h
  rcases hf : env.fetch with msg | un
  · rw [hf] at h
    simp only [List.mem_cons, List.not_mem_nil, or_false] at h
    rcases h with h | h
    · cases h
    · cases h
      exact ⟨rfl, Or.inl rfl⟩
  · rw [hf] at h
    rcases henv : env.renderExc with _ | e <;> rw [henv] at h
    · rcases hc : convert_pdf cfg ofmt (some dpi) page q env.pageCount with e' | pr <;>
        rw [hc] at h
      · simp only [List.mem_cons, List.not_mem_nil, or_false] at h
        rcases h with h | h | h | h
        · cases h
        · cases h; exact ⟨rfl, Or.inl rfl⟩
        · cases h
        · cases h; exact ⟨rfl, Or.inl rfl⟩
      · rcases pr with ⟨pages, fmt⟩
        rcases pages with _ | ⟨pg0, rest⟩
        · simp only [List.mem_cons, List.not_mem_nil, or_false] at h
          rcases h with h | h | h | h
          · cases h
          · cases h; exact ⟨rfl, Or.inl rfl⟩
          · cases h
          · cases h; exact ⟨rfl, Or.inr rfl⟩
        · simp only [List.mem_cons, List.not_mem_nil, or_false] at h
          rcases h with h | h | h | h
          · cases h
          · cases h; exact ⟨rfl, Or.inl rfl⟩
          · cases h
          · cases h; exact ⟨rfl, Or.inl rfl⟩
    · simp only [List.mem_cons, List.not_mem_nil, or_false] at h
      rcases h with h | h | h | h
      · cases h
      · cases h; exact ⟨rfl, Or.inl rfl⟩
      · cases h
      · cases h; exact ⟨rfl, Or.inl rfl⟩

/-- The record the pipeline returns keeps the candidate's `outputs`, and its
`target_files` are the candidate's or freshly rebuilt. -/
lemma pipeline_snd_frame (cfg : Config) (env : Env) (u b sk ofmt : String)
    (dpi : Nat) (page : Option Int) (q : Option Nat) (st : JState) :
    (pipeline cfg env u b sk ofmt dpi page q st).2.outputs = st.outputs ∧
      ((pipeline cfg env u b sk ofmt dpi page q st).2.target_files =
          st.target_files ∨
        (pipeline cfg env u b sk ofmt dpi page q st).2.target_files = []) := by
  unfold pipeline
  rcases hf : env.fetch with msg | un
  · exact ⟨rfl, Or.inl rfl⟩
  · rcases henv : env.renderExc with _ | e
    · rcases hc : convert_pdf cfg ofmt (some dpi) page q env.pageCount with e' | pr
      · exact ⟨rfl, Or.inl rfl⟩
      · rcases pr with ⟨pages, fmt⟩
        rcases pages with _ | ⟨pg0, rest⟩
        · exact ⟨rfl, Or.inr rfl⟩
        · exact ⟨rfl, Or.inl rfl⟩
    · exact ⟨rfl, Or.inl rfl⟩

/-- Reduction of `invoke` once validation passed, when admission returns a
record without executing. -/
lemma invoke_ret (cfg : Config) (env : Env) (ev : Event) (start : Int)
    (pg : Option Int) (tr : List Effect) (s : JState)
    (hsu : pyTruthy ev.source_url = true)
    (hb : pyTruthy ev.output_bucket = true)
    (hpx : pyTruthy ev.outPfx = true)
    (hpg : resolve_page ev.page = Except.ok pg)
    (hadm : admission cfg env ev.force (evBucket ev) (stateKey ev)
      (initState cfg ev start pg) = Admission.ret tr s) :
    invoke cfg env ev start =
      (Effect.loadState (evBucket ev) (stateKey ev) :: tr, Except.ok s) := by
  unfold invoke
  rw [hsu, hb, hpx, hpg]
  simp only [Bool.and_self, if_true]
  rw [hadm]

/-- Reduction of `invoke` once validation passed, when admission falls
through to fresh execution. -/
lemma invoke_proceed (cfg : Config) (env : Env) (ev : Event) (start : Int)
    (pg : Option Int) (tr : List Effect) (st : JState)
    (hsu : pyTruthy ev.source_url = true)
    (hb : pyTruthy ev.output_bucket = true)
    (hpx : pyTruthy ev.outPfx = true)
    (hpg : resolve_page ev.page = Except.ok pg)
    (hadm : admission cfg env ev.force (evBucket ev) (stateKey ev)
      (initState cfg ev start pg) = Admission.proceed tr st) :
    invoke cfg env ev start =
      (Effect.loadState (evBucket ev) (stateKey ev) ::
        (tr ++ (pipeline cfg env (evUrl ev) (evBucket ev) (stateKey ev)
          (evFmt cfg ev) (evDpi cfg ev) pg ev.quality st).1),
       Except.ok (pipeline cfg env (evUrl ev) (evBucket ev) (stateKey ev)
          (evFmt cfg ev) (evDpi cfg ev) pg ev.quality st).2) := by
  unfold invoke
  rw [hsu, hb, hpx, hpg]
  simp only [Bool.and_self, if_true]
  rw [hadm]

/-- Every effect `_first_output_exists` performs is a `get_object` probe. -/
lemma fo_snd_getObject (env : Env) (p1 : JState) :
    ∀ x ∈ (first_output_exists env p1).2, ∃ b2 k2, x = Effect.getObject b2 k2 := by
  intro x hx
  unfold first_output_exists at hx
  rcases houts : p1.outputs with _ | ⟨o, os⟩ <;> simp only [houts] at hx
  · cases hx
  · split at hx
    · cases hx
    · have hx2 : x ∈ [Effect.getObject p1.bucket o.key] := hx
      exact ⟨_, _, List.mem_singleton.mp hx2⟩

/-- Inversion of a fall-through `admitPrior`: the candidate handed to the
pipeline is the fresh record with the prior attempts carried, either as-is
(with only probe effects performed) or marked by the timeout transition (with
exactly that transitional record persisted). -/
lemma admitPrior_proceed (cfg : Config) (env : Env) (b sk : String)
    (st0 p1 : JState) (tr : List Effect) (st : JState)
    (h : admitPrior cfg env b sk st0 p1 = Admission.proceed tr st) :
    (st = { st0 with attempts := p1.attempts } ∧
      ∀ x ∈ tr, ∃ b2 k2, x = Effect.getObject b2 k2) ∨
    (st = timeoutState { st0 with attempts := p1.attempts } ∧
      tr = [Effect.saveState b sk st]) := by
  rcases hst : p1.status with _ | s
  · simp [admitPrior, hst] at h
    obtain ⟨h1, h2⟩ := h
    subst h1; subst h2
    exact Or.inl ⟨rfl, by intro x hx; cases hx⟩
  · rcases s with _ | _ | _
    · simp [admitPrior, hst] at h
      split at h
      · exact Admission.noConfusion h
      · injection h with h1 h2
        subst h1; subst h2
        exact Or.inr ⟨rfl, rfl⟩
    · simp [admitPrior, hst] at h
      split at h
      · exact Admission.noConfusion h
      · injection h with h1 h2
        subst h1; subst h2
        exact Or.inl ⟨rfl, fo_snd_getObject env p1⟩
    · simp [admitPrior, hst] at h
      split at h
      · exact Admission.noConfusion h
      · injection h with h1 h2
        subst h1; subst h2
        exact Or.inl ⟨rfl, by intro x hx; cases hx⟩

/-- Inversion of a fall-through admission: the candidate it hands to the
pipeline is the fresh record, with at most the attempts counter carried (and,
on the timeout path, the transitional fail marking). -/
lemma admission_proceed_form (cfg : Config) (env : Env) (force : Bool)
    (b sk : String) (st0 : JState) (tr : List Effect) (st : JState)
    (h : admission cfg env force b sk st0 = Admission.proceed tr st) :
    (∃ a, st = { st0 with attempts := a }) ∨
      (∃ a, st = { st0 with attempts := a, status := some Status.fail, error := some "task timed out" }) := by
  rcases henv : env.prevState with _ | p
  · simp [admission, henv] at h
    obtain ⟨h1, h2⟩ := h
    subst h2
    exact Or.inl ⟨st0.attempts, rfl⟩
  · by_cases hf : force = true
    · simp [admission, henv, hf] at h
      obtain ⟨h1, h2⟩ := h
      subst h2
      exact Or.inl ⟨st0.attempts, rfl⟩
    · simp [admission, henv, hf] at h
      rcases admitPrior_proceed cfg env b sk st0 (migrate cfg p) tr st h with
        ⟨hst, _⟩ | ⟨hst, _⟩
      · exact Or.inl ⟨(migrate cfg p).attempts, hst⟩
      · exact Or.inr ⟨(migrate cfg p).attempts + 1, hst⟩

/-- Inversion of a fall-through admission: any record persisted during
admission (the timed-out transitional record) keeps the fresh candidate\'s
`outputs` and `target_files`. -/
lemma admission_proceed_saves (cfg : Config) (env : Env) (force : Bool)
    (b sk : String) (st0 : JState) (tr : List Effect) (st : JState)
    (bb kk : String) (s : JState)
    (h : admission cfg env force b sk st0 = Admission.proceed tr st)
    (hm : Effect.saveState bb kk s ∈ tr) :
    s.outputs = st0.outputs ∧ s.target_files = st0.target_files := by
  rcases henv : env.prevState with _ | p
  · simp [admission, henv] at h
    obtain ⟨h1, h2⟩ := h
    subst h1
    cases hm
  · by_cases hf : force = true
    · simp [admission, henv, hf] at h
      obtain ⟨h1, h2⟩ := h
      subst h1
      cases hm
    · simp [admission, henv, hf] at h
      rcases admitPrior_proceed cfg env b sk st0 (migrate cfg p) tr st h with
        ⟨hst, hgo⟩ | ⟨hst, htr⟩
      · rcases hgo _ hm with ⟨b2, k2, hx⟩
        cases hx
      · subst htr
        have he := List.mem_singleton.mp hm
        injection he with e1 e2 e3
        subst e3
        subst hst
        exact ⟨rfl, rfl⟩

/-! ## Concrete fixtures used by witnesses and counterexamples -/

/-- A sample configuration: 60 s timeout, 3 max attempts, schema version 2,
png at 150 dpi by default. -/
def cfgX : Config :=
  { TIMEOUT := 60, MAX_ATTEMPTS := 3, VERSION := 2, DEFAULT_FORMAT := "png",
    DEFAULT_DPI := 150, DEFAULT_JPG_QUALITY := 80 }

/-- The request of the spec's success scenario. -/
def evX : Event :=
  { source_url := some "https://x/doc.pdf", output_bucket := some "b",
    outPfx := some "out/job1", output_format := none, dpi := some 150,
    page := none, quality := none, force := false }

/-- A world with no prior record, a fetchable 2-page document, and a
populated object store. -/
def envFresh : Env :=
  { prevState := none, objectExists := fun _ _ => true, fetch := Except.ok (),
    pageCount := 2, renderExc := none, now := 1000, tConvert := 3,
    tTotal := 5 }

/-- A prior pending record started at time 0 with 2 attempts. -/
def pPend : JState :=
  { bucket := "b", outPfx := "out/job1", status := some Status.pending,
    error := none, datetime_started := some 0, convert_time := none,
    total_time := none, attempts := 2, version := 2, outputs := [],
    output_format := "png", dpi := 150, page := none, quality := none,
    source_url := some "https://x/doc.pdf", target_files := [] }

/-- A prior fail record with exhausted attempts under the current schema. -/
def pFail : JState :=
  { pPend with
    status := some Status.fail
    error := some "boom"
    attempts := 3 }

/-- A prior fail record with exhausted attempts under an older schema. -/
def pFailOld : JState := { pFail with version := 1 }

/-- A prior success record whose first output is listed. -/
def pSucc : JState :=
  { pPend with
    status := some Status.success
    attempts := 0
    outputs := [{ page := 0, key := "out/job1/doc-0.png" }]
    target_files := [{ id := 1, name := "doc-0.png", size := 10 }] }

/-! ## Claims -/

/-- C4: a non-forced invocation whose prior record (current schema) has
status fail and attempts at least maxAttempts returns the prior record
unchanged, having performed only the state load: no save, no fetch, no
render, no publish. -/
theorem C4_exhausted_refuses (cfg : Config) (env : Env) (ev : Event)
    (start : Int) (p : JState) (pg : Option Int)
    (hsu : pyTruthy ev.source_url = true)
    (hb : pyTruthy ev.output_bucket = true)
    (hpx : pyTruthy ev.outPfx = true)
    (hpg : resolve_page ev.page = Except.ok pg)
    (hforce : ev.force = false)
    (hprev : env.prevState = some p)
    (hver : p.version = cfg.VERSION)
    (hst : p.status = some Status.fail)
    (hatt : cfg.MAX_ATTEMPTS ≤ p.attempts) :
    invoke cfg env ev start =
      ([Effect.loadState (evBucket ev) (stateKey ev)], Except.ok p) := by
  have hmig : migrate cfg p = p := by
    unfold migrate
    rw [hver]
    simp
  have hadm : admission cfg env ev.force (evBucket ev) (stateKey ev)
      (initState cfg ev start pg) = Admission.ret [] p := by
    rw [hforce]
    simp [admission, hprev, hmig, admitPrior, hst, hatt]
  rw [invoke_ret cfg env ev start pg [] p hsu hb hpx hpg hadm]

/-- C4 witness: concrete exhausted prior record, concrete refusal. -/
theorem C4_exhausted_refuses_witness :
    invoke cfgX { envFresh with prevState := some pFail } evX 0 =
      ([Effect.loadState "b" "out/job1.state.json"], Except.ok pFail) := by
  rw [C4_exhausted_refuses cfgX { envFresh with prevState := some pFail } evX 0
    pFail none (by decide) (by decide) (by decide) rfl rfl rfl rfl rfl
    (by decide)]
  decide

/-- C5: a non-forced invocation whose prior record has status success and
whose first output still resolves in storage returns that cached record
(after schema migration of the attempts counter), having performed only the
state load and the single existence probe: no fetch, no render, no publish,
no state write. -/
theorem C5_cached_success_returned (cfg : Config) (env : Env) (ev : Event)
    (start : Int) (p : JState) (pg : Option Int) (o : OutputEntry)
    (os : List OutputEntry)
    (hsu : pyTruthy ev.source_url = true)
    (hb : pyTruthy ev.output_bucket = true)
    (hpx : pyTruthy ev.outPfx = true)
    (hpg : resolve_page ev.page = Except.ok pg)
    (hforce : ev.force = false)
    (hprev : env.prevState = some p)
    (hst : p.status = some Status.success)
    (houts : p.outputs = o :: os)
    (hkey : o.key ≠ "")
    (hbkt : p.bucket ≠ "")
    (hex : env.objectExists p.bucket o.key = true) :
    invoke cfg env ev start =
      ([Effect.loadState (evBucket ev) (stateKey ev),
        Effect.getObject p.bucket o.key], Except.ok (migrate cfg p)) := by
  have hms : (migrate cfg p).status = some Status.success := by
    rw [migrate_status, hst]
  have hmo : (migrate cfg p).outputs = o :: os := by
    rw [migrate_outputs, houts]
  have hmb : (migrate cfg p).bucket = p.bucket := migrate_bucket cfg p
  have hfo : first_output_exists env (migrate cfg p) =
      (true, [Effect.getObject p.bucket o.key]) := by
    unfold first_output_exists
    simp only [hmo]
    rw [hmb]
    rw [if_neg (by simp [hkey, hbkt])]
    rw [hex]
  have hadm : admission cfg env ev.force (evBucket ev) (stateKey ev)
      (initState cfg ev start pg) =
      Admission.ret [Effect.getObject p.bucket o.key] (migrate cfg p) := by
    rw [hforce]
    simp [admission, hprev, admitPrior, hms, hfo]
  rw [invoke_ret cfg env ev start pg _ _ hsu hb hpx hpg hadm]

/-- C5 witness: concrete success record with a present artifact is returned
from cache with only the load and the probe performed. -/
theorem C5_cached_success_returned_witness :
    invoke cfgX { envFresh with prevState := some pSucc } evX 0 =
      ([Effect.loadState "b" "out/job1.state.json",
        Effect.getObject "b" "out/job1/doc-0.png"], Except.ok pSucc) := by
  rw [C5_cached_success_returned cfgX { envFresh with prevState := some pSucc }
    evX 0 pSucc none { page := 0, key := "out/job1/doc-0.png" } [] (by decide)
    (by decide) (by decide) rfl rfl rfl rfl rfl (by decide) (by decide) rfl]
  decide

/-- C6: a non-forced invocation whose prior record has status success but
whose first output can no longer be read from storage proceeds to fresh
execution (the source fetch is performed) instead of returning the cached
record. -/
theorem C6_stale_success_proceeds (cfg : Config) (env : Env) (ev : Event)
    (start : Int) (p : JState) (pg : Option Int)
    (hsu : pyTruthy ev.source_url = true)
    (hb : pyTruthy ev.output_bucket = true)
    (hpx : pyTruthy ev.outPfx = true)
    (hpg : resolve_page ev.page = Except.ok pg)
    (hforce : ev.force = false)
    (hprev : env.prevState = some p)
    (hst : p.status = some Status.success)
    (hfo : (first_output_exists env (migrate cfg p)).1 = false) :
    Effect.fetch (evUrl ev) ∈ (invoke cfg env ev start).1 := by
  have hms : (migrate cfg p).status = some Status.success := by
    rw [migrate_status, hst]
  have hadm : admission cfg env ev.force (evBucket ev) (stateKey ev)
      (initState cfg ev start pg) =
      Admission.proceed (first_output_exists env (migrate cfg p)).2
        { initState cfg ev start pg with attempts := (migrate cfg p).attempts } := by
    rw [hforce]
    simp [admission, hprev, admitPrior, hms, hfo]
  rw [invoke_proceed cfg env ev start pg _ _ hsu hb hpx hpg hadm]
  obtain ⟨rest, hr⟩ := pipeline_fetch_head cfg env (evUrl ev) (evBucket ev)
    (stateKey ev) (evFmt cfg ev) (evDpi cfg ev) pg ev.quality
    { initState cfg ev start pg with attempts := (migrate cfg p).attempts }
  simp [hr]

/-- C6 witness: concrete stale success record (artifact probe fails) leads to
a fresh fetch. -/
theorem C6_stale_success_proceeds_witness :
    Effect.fetch "https://x/doc.pdf" ∈
      (invoke cfgX
        { envFresh with
          prevState := some pSucc
          objectExists := fun _ _ => false } evX 0).1 :=
  C6_stale_success_proceeds cfgX
    { envFresh with
      prevState := some pSucc
      objectExists := fun _ _ => false } evX 0 pSucc none (by decide)
    (by decide) (by decide) rfl rfl rfl rfl (by decide)

/-- C7: a non-forced invocation whose prior record carries an older schema
version is admitted with the prior attempts counter treated as 0, so a fail
record with exhausted attempts under the old version proceeds to fresh
execution (fetch performed, pending record persisted with attempts 0)
instead of refusing. -/
theorem C7_schema_migration_forgives (cfg : Config) (env : Env) (ev : Event)
    (start : Int) (p : JState) (pg : Option Int)
    (hsu : pyTruthy ev.source_url = true)
    (hb : pyTruthy ev.output_bucket = true)
    (hpx : pyTruthy ev.outPfx = true)
    (hpg : resolve_page ev.page = Except.ok pg)
    (hforce : ev.force = false)
    (hprev : env.prevState = some p)
    (hver : p.version ≠ cfg.VERSION)
    (hst : p.status = some Status.fail)
    (_hatt : cfg.MAX_ATTEMPTS ≤ p.attempts)
    (hmax : 0 < cfg.MAX_ATTEMPTS)
    (hfetch : env.fetch = Except.ok ()) :
    ∃ pend sfinal,
      (invoke cfg env ev start).1 =
        [Effect.loadState (evBucket ev) (stateKey ev),
         Effect.fetch (evUrl ev),
         Effect.saveState (evBucket ev) (stateKey ev) pend,
         Effect.render,
         Effect.saveState (evBucket ev) (stateKey ev) sfinal] ∧
      pend.status = some Status.pending ∧ pend.attempts = 0 := by
  have h0 : cfg.MAX_ATTEMPTS ≠ 0 := Nat.pos_iff_ne_zero.mp hmax
  have hmig : migrate cfg p = { p with attempts := 0 } := by
    unfold migrate
    rw [if_pos hver]
  have hadm : admission cfg env ev.force (evBucket ev) (stateKey ev)
      (initState cfg ev start pg) =
      Admission.proceed [] { initState cfg ev start pg with attempts := 0 } := by
    rw [hforce]
    simp [admission, hprev, hmig, admitPrior, hst, h0]
  rw [invoke_proceed cfg env ev start pg _ _ hsu hb hpx hpg hadm]
  obtain ⟨s, hp⟩ := pipeline_ok cfg env (evUrl ev) (evBucket ev) (stateKey ev)
    (evFmt cfg ev) (evDpi cfg ev) pg ev.quality
    { initState cfg ev start pg with attempts := 0 } hfetch
  refine ⟨{ { initState cfg ev start pg with attempts := 0 } with
    status := some Status.pending }, s, ?_, rfl, rfl⟩
  simp [hp]

/-- C7 witness: a concrete old-version exhausted fail record proceeds to a
fresh run whose pending record has attempts 0. -/
theorem C7_schema_migration_forgives_witness :
    ∃ pend sfinal,
      (invoke cfgX { envFresh with prevState := some pFailOld } evX 0).1 =
        [Effect.loadState (evBucket evX) (stateKey evX),
         Effect.fetch (evUrl evX),
         Effect.saveState (evBucket evX) (stateKey evX) pend,
         Effect.render,
         Effect.saveState (evBucket evX) (stateKey evX) sfinal] ∧
      pend.status = some Status.pending ∧ pend.attempts = 0 :=
  C7_schema_migration_forgives cfgX { envFresh with prevState := some pFailOld }
    evX 0 pFailOld none (by decide) (by decide) (by decide) rfl rfl rfl
    (by decide) rfl (by decide) (by decide) rfl

/-- C2 (amended): a non-forced invocation that finds a timed-out pending
prior record persists the transitional record (attempts incremented, status
fail, error "task timed out") and then always proceeds to fresh execution —
the fetch happens regardless of how the incremented attempts count compares
to maxAttempts, because the refusal check tests the prior record's status,
which is pending. -/
theorem C2_timeout_marks_fail_and_proceeds (cfg : Config) (env : Env)
    (ev : Event) (start : Int) (p : JState) (pg : Option Int)
    (hsu : pyTruthy ev.source_url = true)
    (hb : pyTruthy ev.output_bucket = true)
    (hpx : pyTruthy ev.outPfx = true)
    (hpg : resolve_page ev.page = Except.ok pg)
    (hforce : ev.force = false)
    (hprev : env.prevState = some p)
    (hst : p.status = some Status.pending)
    (hto : has_timed_out cfg (migrate cfg p) env.now = true) :
    ∃ strans rest,
      (invoke cfg env ev start).1 =
        Effect.loadState (evBucket ev) (stateKey ev) ::
          Effect.saveState (evBucket ev) (stateKey ev) strans ::
          Effect.fetch (evUrl ev) :: rest ∧
      strans.status = some Status.fail ∧
      strans.error = some "task timed out" ∧
      strans.attempts = (migrate cfg p).attempts + 1 := by
  have hms : (migrate cfg p).status = some Status.pending := by
    rw [migrate_status, hst]
  have hadm : admission cfg env ev.force (evBucket ev) (stateKey ev)
      (initState cfg ev start pg) =
      Admission.proceed
        [Effect.saveState (evBucket ev) (stateKey ev)
          (timeoutState { initState cfg ev start pg with
            attempts := (migrate cfg p).attempts })]
        (timeoutState { initState cfg ev start pg with
          attempts := (migrate cfg p).attempts }) := by
    rw [hforce]
    simp [admission, hprev, admitPrior, hms, hto]
  rw [invoke_proceed cfg env ev start pg _ _ hsu hb hpx hpg hadm]
  obtain ⟨rest, hr⟩ := pipeline_fetch_head cfg env (evUrl ev) (evBucket ev)
    (stateKey ev) (evFmt cfg ev) (evDpi cfg ev) pg ev.quality
    (timeoutState { initState cfg ev start pg with
      attempts := (migrate cfg p).attempts })
  refine ⟨timeoutState { initState cfg ev start pg with
    attempts := (migrate cfg p).attempts }, rest, ?_, rfl, rfl, rfl⟩
  simp [hr]

/-- C2 amended witness: concrete timed-out pending record is marked fail and
the invocation still fetches. -/
theorem C2_timeout_marks_fail_and_proceeds_witness :
    ∃ strans rest,
      (invoke cfgX { envFresh with prevState := some pPend } evX 0).1 =
        Effect.loadState (evBucket evX) (stateKey evX) ::
          Effect.saveState (evBucket evX) (stateKey evX) strans ::
          Effect.fetch (evUrl evX) :: rest ∧
      strans.status = some Status.fail ∧
      strans.error = some "task timed out" ∧
      strans.attempts = (migrate cfgX pPend).attempts + 1 :=
  C2_timeout_marks_fail_and_proceeds cfgX
    { envFresh with prevState := some pPend } evX 0 pPend none (by decide)
    (by decide) (by decide) rfl rfl rfl rfl (by decide)

/-- C2 counterexample: with maxAttempts 3, a timed-out pending record with 2
prior attempts reaches the limit when incremented (2 + 1 = 3), yet the
invocation still performs the fetch — it does not Refuse as the claim
states. -/
theorem C2_refuses_at_limit_cex :
    has_timed_out cfgX pPend 1000 = true ∧
    pPend.attempts + 1 = cfgX.MAX_ATTEMPTS ∧
    Effect.fetch "https://x/doc.pdf" ∈
      (invoke cfgX { envFresh with prevState := some pPend } evX 0).1 := by
  refine ⟨?_, ?_, ?_⟩ <;> decide

/-- C8 (amended): with the force flag set and a prior record present, the
invocation proceeds to fresh execution, but the candidate state starts with
attempts 0 — the prior record's attempts count is not carried, because the
whole admission block (including the attempts carry-over) is skipped under
force. -/
theorem C8_force_resets_attempts (cfg : Config) (env : Env) (ev : Event)
    (start : Int) (p : JState) (pg : Option Int)
    (hsu : pyTruthy ev.source_url = true)
    (hb : pyTruthy ev.output_bucket = true)
    (hpx : pyTruthy ev.outPfx = true)
    (hpg : resolve_page ev.page = Except.ok pg)
    (hforce : ev.force = true)
    (hprev : env.prevState = some p)
    (hfetch : env.fetch = Except.ok ()) :
    ∃ pend sfinal,
      (invoke cfg env ev start).1 =
        [Effect.loadState (evBucket ev) (stateKey ev),
         Effect.fetch (evUrl ev),
         Effect.saveState (evBucket ev) (stateKey ev) pend,
         Effect.render,
         Effect.saveState (evBucket ev) (stateKey ev) sfinal] ∧
      pend.status = some Status.pending ∧ pend.attempts = 0 := by
  have hadm : admission cfg env ev.force (evBucket ev) (stateKey ev)
      (initState cfg ev start pg) =
      Admission.proceed [] (initState cfg ev start pg) := by
    rw [hforce]
    simp [admission, hprev]
  rw [invoke_proceed cfg env ev start pg _ _ hsu hb hpx hpg hadm]
  obtain ⟨s, hp⟩ := pipeline_ok cfg env (evUrl ev) (evBucket ev) (stateKey ev)
    (evFmt cfg ev) (evDpi cfg ev) pg ev.quality (initState cfg ev start pg)
    hfetch
  refine ⟨{ initState cfg ev start pg with status := some Status.pending }, s,
    ?_, rfl, rfl⟩
  simp [hp]

/-- C8 amended witness: concrete forced run over a prior record with 2
attempts persists a pending record with attempts 0. -/
theorem C8_force_resets_attempts_witness :
    ∃ pend sfinal,
      (invoke cfgX { envFresh with prevState := some pPend }
        { evX with force := true } 0).1 =
        [Effect.loadState (evBucket { evX with force := true })
          (stateKey { evX with force := true }),
         Effect.fetch (evUrl { evX with force := true }),
         Effect.saveState (evBucket { evX with force := true })
          (stateKey { evX with force := true }) pend,
         Effect.render,
         Effect.saveState (evBucket { evX with force := true })
          (stateKey { evX with force := true }) sfinal] ∧
      pend.status = some Status.pending ∧ pend.attempts = 0 :=
  C8_force_resets_attempts cfgX { envFresh with prevState := some pPend }
    { evX with force := true } 0 pPend none (by decide) (by decide)
    (by decide) rfl rfl rfl rfl

/-- C8 counterexample: prior record has attempts 2 and force is set; the
claim says the candidate carries attempts 2, but no record persisted by the
invocation has attempts 2 and the returned record has attempts 1 (0 from the
fresh candidate, incremented once by the render failure). -/
theorem C8_force_carries_attempts_cex :
    ((invoke cfgX { envFresh with prevState := some pPend }
        { evX with force := true } 0).1.all
      (fun e => match e with
        | Effect.saveState _ _ s => decide (s.attempts ≠ pPend.attempts)
        | _ => true)) = true ∧
    (invoke cfgX { envFresh with prevState := some pPend }
        { evX with force := true } 0).2.map JState.attempts = Except.ok 1 ∧
    Effect.fetch "https://x/doc.pdf" ∈
      (invoke cfgX { envFresh with prevState := some pPend }
        { evX with force := true } 0).1 := by
  refine ⟨?_, ?_, ?_⟩ <;> decide

/-- C1 (amended): on every invocation that proceeds to fresh execution and
whose fetch succeeds, a record with status pending (startedAt set to the
invocation start, attempts carried from admission) is persisted immediately
after the fetch and before rendering — not before the fetch as the claim
states. -/
theorem C1_pending_saved_after_fetch (cfg : Config) (env : Env) (ev : Event)
    (start : Int) (pg : Option Int) (tr : List Effect) (st : JState)
    (hsu : pyTruthy ev.source_url = true)
    (hb : pyTruthy ev.output_bucket = true)
    (hpx : pyTruthy ev.outPfx = true)
    (hpg : resolve_page ev.page = Except.ok pg)
    (hadm : admission cfg env ev.force (evBucket ev) (stateKey ev)
      (initState cfg ev start pg) = Admission.proceed tr st)
    (hfetch : env.fetch = Except.ok ()) :
    ∃ sfinal,
      (invoke cfg env ev start).1 =
        Effect.loadState (evBucket ev) (stateKey ev) ::
          (tr ++ [Effect.fetch (evUrl ev),
            Effect.saveState (evBucket ev) (stateKey ev)
              { st with status := some Status.pending },
            Effect.render,
            Effect.saveState (evBucket ev) (stateKey ev) sfinal]) ∧
      st.datetime_started = some start ∧
      ({ st with status := some Status.pending }).attempts = st.attempts := by
  rw [invoke_proceed cfg env ev start pg tr st hsu hb hpx hpg hadm]
  obtain ⟨s, hp⟩ := pipeline_ok cfg env (evUrl ev) (evBucket ev) (stateKey ev)
    (evFmt cfg ev) (evDpi cfg ev) pg ev.quality st hfetch
  refine ⟨s, by simp [hp], ?_, rfl⟩
  rcases admission_proceed_form cfg env ev.force (evBucket ev) (stateKey ev)
    (initState cfg ev start pg) tr st hadm with ⟨a, hform⟩ | ⟨a, hform⟩ <;>
    subst hform <;> rfl

/-- C1 amended witness: concrete fresh run, pending record saved between
fetch and render. -/
theorem C1_pending_saved_after_fetch_witness :
    ∃ sfinal,
      (invoke cfgX envFresh evX 0).1 =
        Effect.loadState (evBucket evX) (stateKey evX) ::
          ([] ++ [Effect.fetch (evUrl evX),
            Effect.saveState (evBucket evX) (stateKey evX)
              { initState cfgX evX 0 none with status := some Status.pending },
            Effect.render,
            Effect.saveState (evBucket evX) (stateKey evX) sfinal]) ∧
      (initState cfgX evX 0 none).datetime_started = some 0 ∧
      ({ initState cfgX evX 0 none with
        status := some Status.pending }).attempts =
        (initState cfgX evX 0 none).attempts :=
  C1_pending_saved_after_fetch cfgX envFresh evX 0 none []
    (initState cfgX evX 0 none) (by decide) (by decide) (by decide) rfl rfl
    rfl

/-- Recognizer for fetch effects. -/
def isFetch : Effect → Bool
  | Effect.fetch _ => true
  | _ => false

/-- Recognizer for persisted records with status pending. -/
def isPendingSave : Effect → Bool
  | Effect.saveState _ _ s => s.status == some Status.pending
  | _ => false

/-- C1 counterexample: on a concrete fresh run the trace contains a fetch
and a pending save, but no pending save occurs before the fetch — so the
pending record is not persisted before the remote fetch begins. -/
theorem C1_pending_before_fetch_cex :
    ((invoke cfgX envFresh evX 0).1.any isFetch = true) ∧
    ((invoke cfgX envFresh evX 0).1.any isPendingSave = true) ∧
    (((invoke cfgX envFresh evX 0).1.takeWhile (fun e => !isFetch e)).all
      (fun e => !isPendingSave e) = true) := by
  refine ⟨?_, ?_, ?_⟩ <;> decide

/-- C3: on the spec's success scenario (valid request, no prior record,
2-page document, fetch and rasterization succeed) the final record is not a
success: the first iteration of the publish loop calls `build_output_key`
with three positional arguments (service.py line 277) while utils.py line 76
defines it with two parameters, so Python raises `TypeError`, the except
block classifies the run as fail, and outputs and the manifest stay empty. -/
theorem C3_success_scenario_hits_type_error :
    (invoke cfgX envFresh evX 0).2.map JState.status =
      Except.ok (some Status.fail) ∧
    (invoke cfgX envFresh evX 0).2.map JState.error =
      Except.ok (some typeErrorMsg) ∧
    (invoke cfgX envFresh evX 0).2.map JState.outputs = Except.ok [] ∧
    (invoke cfgX envFresh evX 0).2.map JState.target_files = Except.ok [] ∧
    (invoke cfgX envFresh evX 0).2.map JState.attempts = Except.ok 1 := by
  refine ⟨?_, ?_, ?_, ?_, ?_⟩ <;> decide

/-- C9: a page selector p ≤ 0 is rejected before any state access (empty
effect trace), as the claim states; but for 1 ≤ p ≤ pageCount the single
rendered page is the one at 0-based index min(p, pageCount-1): on a 2-page
document, p = 1 renders index 1 — the second page — not the 1st page the
1-based claim requires, and the first page is unselectable. -/
theorem C9_page_selector_off_by_one :
    resolve_page (some 0) = Except.error "page must be >= 1, got 0" ∧
    invoke cfgX envFresh { evX with page := some 0 } 0 =
      ([], Except.error "page must be >= 1, got 0") ∧
    convert_pdf cfgX "png" (some 150) (some 1) none 2 =
      Except.ok ([1], "png") ∧
    convert_pdf cfgX "png" (some 150) (some 2) none 2 =
      Except.ok ([1], "png") := by
  refine ⟨?_, ?_, ?_, ?_⟩ <;> decide

/-- C10: every invocation that proceeds to fresh execution builds from a
newly created candidate record — equal to the fresh record of
`_create_initial_state` (whose `outputs`, `target_files` are empty and
`error` is null) except for the carried attempts counter and, on the timeout
path, the transitional fail marking — and consequently no output or manifest
entry of the prior record ever appears in any record this invocation
persists or returns. -/
theorem C10_fresh_candidate_is_clean (cfg : Config) (env : Env) (ev : Event)
    (start : Int) (p : JState) (pg : Option Int) (tr : List Effect)
    (st : JState)
    (hsu : pyTruthy ev.source_url = true)
    (hb : pyTruthy ev.output_bucket = true)
    (hpx : pyTruthy ev.outPfx = true)
    (hpg : resolve_page ev.page = Except.ok pg)
    (_hprev : env.prevState = some p)
    (hadm : admission cfg env ev.force (evBucket ev) (stateKey ev)
      (initState cfg ev start pg) = Admission.proceed tr st) :
    ((∃ a, st = { initState cfg ev start pg with attempts := a }) ∨
      (∃ a, st = { initState cfg ev start pg with attempts := a, status := some Status.fail, error := some "task timed out" })) ∧
    (∀ bb kk s, Effect.saveState bb kk s ∈ (invoke cfg env ev start).1 →
      (∀ o ∈ p.outputs, o ∉ s.outputs) ∧
        ∀ t ∈ p.target_files, t ∉ s.target_files) ∧
    (∀ s, (invoke cfg env ev start).2 = Except.ok s →
      (∀ o ∈ p.outputs, o ∉ s.outputs) ∧
        ∀ t ∈ p.target_files, t ∉ s.target_files) := by
  have hform := admission_proceed_form cfg env ev.force (evBucket ev)
    (stateKey ev) (initState cfg ev start pg) tr st hadm
  have hsto : st.outputs = [] := by
    rcases hform with ⟨a, hf⟩ | ⟨a, hf⟩ <;> subst hf <;> rfl
  have hstt : st.target_files = [] := by
    rcases hform with ⟨a, hf⟩ | ⟨a, hf⟩ <;> subst hf <;> rfl
  refine ⟨hform, ?_, ?_⟩
  · intro bb kk s hm
    rw [invoke_proceed cfg env ev start pg tr st hsu hb hpx hpg hadm] at hm
    have hm2 : Effect.saveState bb kk s ∈
        Effect.loadState (evBucket ev) (stateKey ev) ::
          (tr ++ (pipeline cfg env (evUrl ev) (evBucket ev) (stateKey ev)
            (evFmt cfg ev) (evDpi cfg ev) pg ev.quality st).1) := hm
    simp only [List.mem_cons, List.mem_append] at hm2
    have hemp : s.outputs = [] ∧ s.target_files = [] := by
      rcases hm2 with hm2 | hm2 | hm2
      · exact Effect.noConfusion hm2
      · have hfr := admission_proceed_saves cfg env ev.force (evBucket ev)
          (stateKey ev) (initState cfg ev start pg) tr st bb kk s hadm hm2
        exact ⟨hfr.1, hfr.2⟩
      · have hfr := pipeline_save_frame cfg env (evUrl ev) (evBucket ev)
          (stateKey ev) (evFmt cfg ev) (evDpi cfg ev) pg ev.quality st bb kk s
          hm2
        refine ⟨hfr.1.trans hsto, ?_⟩
        rcases hfr.2 with h2 | h2
        · exact h2.trans hstt
        · exact h2
    rw [hemp.1, hemp.2]
    exact ⟨fun o _ ho => (List.not_mem_nil o) ho,
      fun t _ ht => (List.not_mem_nil t) ht⟩
  · intro s hs
    rw [invoke_proceed cfg env ev start pg tr st hsu hb hpx hpg hadm] at hs
    have hs2 : Except.ok (pipeline cfg env (evUrl ev) (evBucket ev)
        (stateKey ev) (evFmt cfg ev) (evDpi cfg ev) pg ev.quality st).2 =
        Except.ok s := hs
    injection hs2 with hs3
    subst hs3
    have hfr := pipeline_snd_frame cfg env (evUrl ev) (evBucket ev)
      (stateKey ev) (evFmt cfg ev) (evDpi cfg ev) pg ev.quality st
    have hemp : (pipeline cfg env (evUrl ev) (evBucket ev) (stateKey ev)
        (evFmt cfg ev) (evDpi cfg ev) pg ev.quality st).2.outputs = [] ∧
        (pipeline cfg env (evUrl ev) (evBucket ev) (stateKey ev)
          (evFmt cfg ev) (evDpi cfg ev) pg ev.quality st).2.target_files = [] := by
      refine ⟨hfr.1.trans hsto, ?_⟩
      rcases hfr.2 with h2 | h2
      · exact h2.trans hstt
      · exact h2
    rw [hemp.1, hemp.2]
    exact ⟨fun o _ ho => (List.not_mem_nil o) ho,
      fun t _ ht => (List.not_mem_nil t) ht⟩

/-- C10 witness: concrete stale success prior record (attempts 0, artifact
probe fails): the fresh run's candidate equals the fresh record with
attempts 0, and the prior record's output and manifest entries appear in no
persisted or returned record. -/
theorem C10_fresh_candidate_is_clean_witness :
    ((∃ a, { initState cfgX evX 0 none with attempts := 0 } =
        { initState cfgX evX 0 none with attempts := a }) ∨
      (∃ a, { initState cfgX evX 0 none with attempts := 0 } =
        { initState cfgX evX 0 none with attempts := a, status := some Status.fail, error := some "task timed out" })) ∧
    (∀ bb kk s, Effect.saveState bb kk s ∈
        (invoke cfgX
          { envFresh with
            prevState := some pSucc
            objectExists := fun _ _ => false } evX 0).1 →
      (∀ o ∈ pSucc.outputs, o ∉ s.outputs) ∧
        ∀ t ∈ pSucc.target_files, t ∉ s.target_files) ∧
    (∀ s, (invoke cfgX
        { envFresh with
          prevState := some pSucc
          objectExists := fun _ _ => false } evX 0).2 = Except.ok s →
      (∀ o ∈ pSucc.outputs, o ∉ s.outputs) ∧
        ∀ t ∈ pSucc.target_files, t ∉ s.target_files) :=
  C10_fresh_candidate_is_clean cfgX
    { envFresh with
      prevState := some pSucc
      objectExists := fun _ _ => false } evX 0 pSucc none
    [Effect.getObject "b" "out/job1/doc-0.png"]
    { initState cfgX evX 0 none with attempts := 0 } (by decide) (by decide)
    (by decide) rfl rfl (by decide)

end Pdf2Image
